import Mathlib

/-!
# resperr: status codes and user messages attached to Go errors

A shallow embedding of `resperr.go`.  A Go `error` interface value is either
`nil` or one of three node shapes: a plain error (anything that has neither the
status-code nor the message capability, with an optional cause), the package's
`statusCoder` struct, or the package's `messenger` struct.  The interfaces
`StatusCoder` and `UserMessenger` are modelled by the dynamic values that
implement them, and `errors.As` by a walk over the cause chain.
-/

namespace Resperr

/-- A value of Go's interface type `error`: `nil`, or a node of the cause chain.
`plain text cause` stands for an error whose type has neither a `StatusCode` nor
a `UserMessage` method, no `As` method, and at most one cause
(`errors.New(text)` when `cause` is `nil`, the result of `fmt.Errorf` with one
`%w` otherwise).  `statusCoder err code` and
`messenger err msg` are the two structs of the package; their embedded `error`
field is an interface value and so may itself be `nil`. -/
inductive error where
  | nil : error
  | plain (text : String) (cause : error) : error
  | statusCoder (err : error) (code : Int) : error
  | messenger (err : error) (msg : String) : error
  deriving DecidableEq, Repr

/-- A value of the interface type `StatusCoder`: the structs of the closed node
set whose method set contains `Error() string` and `StatusCode() int`. -/
inductive StatusCoder where
  | statusCoder (err : error) (code : Int) : StatusCoder
  | messenger (err : error) (msg : String) : StatusCoder
  deriving DecidableEq, Repr

/-- A value of the interface type `UserMessenger`: only `messenger` has a
`UserMessage() string` method (the methods promoted from the embedded `error`
field of `statusCoder` are those of the interface `error`, that is `Error`). -/
inductive UserMessenger where
  | messenger (err : error) (msg : String) : UserMessenger
  deriving DecidableEq, Repr

/-- The table of `net/http.StatusText` of the Go standard library. -/
def statusTextTable : List (Int × String) :=
  [(100, "Continue"), (101, "Switching Protocols"), (102, "Processing"),
   (103, "Early Hints"),
   (200, "OK"), (201, "Created"), (202, "Accepted"),
   (203, "Non-Authoritative Information"), (204, "No Content"),
   (205, "Reset Content"), (206, "Partial Content"), (207, "Multi-Status"),
   (208, "Already Reported"), (226, "IM Used"),
   (300, "Multiple Choices"), (301, "Moved Permanently"), (302, "Found"),
   (303, "See Other"), (304, "Not Modified"), (305, "Use Proxy"),
   (307, "Temporary Redirect"), (308, "Permanent Redirect"),
   (400, "Bad Request"), (401, "Unauthorized"), (402, "Payment Required"),
   (403, "Forbidden"), (404, "Not Found"), (405, "Method Not Allowed"),
   (406, "Not Acceptable"), (407, "Proxy Authentication Required"),
   (408, "Request Timeout"), (409, "Conflict"), (410, "Gone"),
   (411, "Length Required"), (412, "Precondition Failed"),
   (413, "Request Entity Too Large"), (414, "Request URI Too Long"),
   (415, "Unsupported Media Type"), (416, "Requested Range Not Satisfiable"),
   (417, "Expectation Failed"), (418, "I\x27m a teapot"),
   (421, "Misdirected Request"), (422, "Unprocessable Entity"), (423, "Locked"),
   (424, "Failed Dependency"), (425, "Too Early"), (426, "Upgrade Required"),
   (428, "Precondition Required"), (429, "Too Many Requests"),
   (431, "Request Header Fields Too Large"),
   (451, "Unavailable For Legal Reasons"),
   (500, "Internal Server Error"), (501, "Not Implemented"),
   (502, "Bad Gateway"), (503, "Service Unavailable"), (504, "Gateway Timeout"),
   (505, "HTTP Version Not Supported"), (506, "Variant Also Negotiates"),
   (507, "Insufficient Storage"), (508, "Loop Detected"), (510, "Not Extended"),
   (511, "Network Authentication Required")]

/-- Go's `http.StatusText(code)`: the text of a known code, `""` otherwise. -/
def httpStatusText (code : Int) : String :=
  (statusTextTable.lookup code).getD ""

/-- The package-level variables of `resperr.go`, read by the accessors. -/
structure Config where
  DefaultErrorMessage : String
  StatusCodeToMessage : Int → String
  StatusCodeNoErr : Int
  StatusCodeErr : Int
  StatusCodeMsg : Int

/-- The initial values of the package-level variables. -/
def defaultConfig : Config where
  DefaultErrorMessage := "An unexpected error occured."
  StatusCodeToMessage := httpStatusText
  StatusCodeNoErr := 200
  StatusCodeErr := 500
  StatusCodeMsg := 400

/-- Go's `errors.New(text)`. -/
def errorsNew (text : String) : error := error.plain text error.nil

/-- Go's `errors.Unwrap(err)`: the result of the node's `Unwrap` method
(`statusCoder.Unwrap` and `messenger.Unwrap` return the embedded field), `nil`
for `nil` and for a node without one. -/
def errorsUnwrap : error → error
  | error.nil => error.nil
  | error.plain _ cause => cause
  | error.statusCoder err _ => err
  | error.messenger err _ => err

/-- The cause chain `e, cause(e), cause(cause(e)), …` of an error, outer-most
node first; empty for `nil`. -/
def chain : error → List error
  | error.nil => []
  | error.plain text cause => error.plain text cause :: chain cause
  | error.statusCoder err code => error.statusCoder err code :: chain err
  | error.messenger err msg => error.messenger err msg :: chain err

/-- Number of nodes of the cause chain. -/
def error.depth : error → Nat
  | error.nil => 0
  | error.plain _ cause => cause.depth + 1
  | error.statusCoder err _ => err.depth + 1
  | error.messenger err _ => err.depth + 1

/-- The method `Error() string`.  `statusCoder.Error` returns
`sc.error.Error()` and `messenger` has the method promoted from its embedded
field; calling it through a `nil` interface is a nil dereference (`none`). -/
def error.Error : error → Option String
  | error.nil => none
  | error.plain text _ => some text
  | error.statusCoder err _ => err.Error
  | error.messenger err _ => err.Error

/-- Type assertion of one node to the interface `StatusCoder`. -/
def error.asStatusCoder : error → Option StatusCoder
  | error.statusCoder err code => some (StatusCoder.statusCoder err code)
  | error.messenger err msg => some (StatusCoder.messenger err msg)
  | _ => none

/-- Type assertion of one node to the interface `UserMessenger`. -/
def error.asUserMessenger : error → Option UserMessenger
  | error.messenger err msg => some (UserMessenger.messenger err msg)
  | _ => none

/-- The node behind a `StatusCoder` value. -/
def StatusCoder.toError : StatusCoder → error
  | StatusCoder.statusCoder err code => error.statusCoder err code
  | StatusCoder.messenger err msg => error.messenger err msg

/-- Go's `errors.As(err, &target)` for a target of interface type: `false`
(`none`) on `nil`; otherwise the first node of the chain assignable to the
target, following `Unwrap` until it returns `nil`. -/
def errorsAs {α : Type} (assignable : error → Option α) : error → Option α
  | error.nil => none
  | error.plain text cause =>
    match assignable (error.plain text cause) with
    | some v => some v
    | none => errorsAs assignable cause
  | error.statusCoder err code =>
    match assignable (error.statusCoder err code) with
    | some v => some v
    | none => errorsAs assignable err
  | error.messenger err msg =>
    match assignable (error.messenger err msg) with
    | some v => some v
    | none => errorsAs assignable err

/-- The method `StatusCode() int` called through a `StatusCoder` value:
`statusCoder.StatusCode` returns the stored code; `messenger.StatusCode` runs
`errors.As` for a `StatusCoder` from its own embedded error and calls the
method of what it finds, or returns `StatusCodeMsg`. -/
def StatusCoder.StatusCode (cfg : Config) : StatusCoder → Int
  | StatusCoder.statusCoder _ code => code
  | StatusCoder.messenger err _ =>
    match h : errorsAs error.asStatusCoder err with
    | some sc => StatusCoder.StatusCode cfg sc
    | none => cfg.StatusCodeMsg
termination_by sc => sc.toError.depth
decreasing_by
  have key : ∀ (e : error) (s : StatusCoder),
      errorsAs error.asStatusCoder e = some s → s.toError.depth ≤ e.depth := by
    intro e
    induction e with
    | nil => intro s hs; simp [errorsAs] at hs
    | plain text cause ih =>
      intro s hs
      simp only [errorsAs, error.asStatusCoder] at hs
      have := ih s hs
      simp only [error.depth]; omega
    | statusCoder e c _ =>
      intro s hs
      simp only [errorsAs, error.asStatusCoder, Option.some.injEq] at hs
      subst hs
      simp [StatusCoder.toError, error.depth]
    | messenger e m _ =>
      intro s hs
      simp only [errorsAs, error.asStatusCoder, Option.some.injEq] at hs
      subst hs
      simp [StatusCoder.toError, error.depth]
  have hle := key _ _ h
  show _ < (error.messenger _ _).depth
  simp only [error.depth]
  omega

/-- The method `UserMessage() string` of `messenger`. -/
def UserMessenger.UserMessage : UserMessenger → String
  | UserMessenger.messenger _ msg => msg

/-- `WithStatusCode(err, code)`. -/
def WithStatusCode (err : error) (code : Int) : error :=
  match err with
  | error.nil => error.statusCoder (errorsNew (httpStatusText code)) code
  | err => error.statusCoder err code

/-- `StatusCode(err)`. -/
def StatusCode (cfg : Config) (err : error) : Int :=
  match err with
  | error.nil => cfg.StatusCodeNoErr
  | err =>
    match errorsAs error.asStatusCoder err with
    | some sc => sc.StatusCode cfg
    | none => cfg.StatusCodeErr

/-- `WithUserMessage(err, msg)`. -/
def WithUserMessage (err : error) (msg : String) : error :=
  match err with
  | error.nil => error.messenger (errorsNew ("UserMessage<" ++ msg ++ ">")) msg
  | err => error.messenger err msg

/-- An operand of a formatting call (`v ...any`): a string, an integer or an
error value. -/
inductive Arg where
  | str (s : String) : Arg
  | int (n : Int) : Arg
  | err (e : error) : Arg
  deriving DecidableEq, Repr

/-- The printer of Go's `fmt` (`doPrintf`) on the fragment used with this
package: the directives `%%`, `%s`, `%v`, `%d` and `%w` without flags, width,
precision or argument index, over string, integer and error operands.  The
result is the text and the operands of `%w` in order (`p.wrappedErrs`).  A
directive with no operand left prints `%!verb(MISSING)` and a lone `%` at the
end prints `%!(NOVERB)`, as in Go.  `none` marks a call outside the fragment:
another verb or a flag, a verb that does not fit its operand, `%w` when
`wrapErrs` is off, an error operand whose `Error` method dereferences `nil`,
or operands left over at the end. -/
def doPrintf (wrapErrs : Bool) : List Char → List Arg → Option (String × List error)
  | [], [] => some ("", [])
  | [], _ :: _ => none
  | '%' :: [], [] => some ("%!(NOVERB)", [])
  | '%' :: [], _ :: _ => none
  | '%' :: verb :: rest, args =>
    if verb = '%' then
      (doPrintf wrapErrs rest args).map fun r => ("%" ++ r.1, r.2)
    else if verb = 's' ∨ verb = 'v' ∨ verb = 'd' ∨ verb = 'w' then
      match args with
      | [] =>
        (doPrintf wrapErrs rest []).map fun r =>
          ("%!" ++ String.singleton verb ++ "(MISSING)" ++ r.1, r.2)
      | Arg.str x :: more =>
        if verb = 's' ∨ verb = 'v' then
          (doPrintf wrapErrs rest more).map fun r => (x ++ r.1, r.2)
        else none
      | Arg.int n :: more =>
        if verb = 'd' ∨ verb = 'v' then
          (doPrintf wrapErrs rest more).map fun r => (toString n ++ r.1, r.2)
        else none
      | Arg.err e :: more =>
        match e.Error with
        | none => none
        | some text =>
          if verb = 's' ∨ verb = 'v' then
            (doPrintf wrapErrs rest more).map fun r => (text ++ r.1, r.2)
          else if verb = 'w' ∧ wrapErrs = true then
            (doPrintf wrapErrs rest more).map fun r => (text ++ r.1, e :: r.2)
          else none
    else none
  | c :: rest, args =>
    (doPrintf wrapErrs rest args).map fun r => (String.singleton c ++ r.1, r.2)

/-- Go's `fmt.Sprintf(format, v...)` on the fragment of `doPrintf`. -/
def fmtSprintf (format : String) (v : List Arg) : Option String :=
  (doPrintf false format.toList v).map fun r => r.1

/-- Go's `fmt.Errorf(format, v...)` on the fragment of `doPrintf`: without a
`%w` operand the result is `errors.New` of the text; with one, a wrapper with
that text whose `Unwrap` returns the operand.  Several `%w` give an error with
several causes, which is outside the node set (`none`). -/
def fmtErrorf (format : String) (v : List Arg) : Option error :=
  match doPrintf true format.toList v with
  | none => none
  | some (s, []) => some (errorsNew s)
  | some (s, [e]) => some (error.plain s e)
  | some (_, _ :: _ :: _) => none

/-- `WithUserMessagef(err, format, v...)`; `none` when the formatting call is
outside the fragment of `doPrintf`. -/
def WithUserMessagef (err : error) (format : String) (v : List Arg) : Option error :=
  (fmtSprintf format v).map fun msg => WithUserMessage err msg

/-- `UserMessageStatus(err)`. -/
def UserMessageStatus (cfg : Config) (err : error) : String :=
  match err with
  | error.nil => ""
  | err =>
    match errorsAs error.asUserMessenger err with
    | some um => um.UserMessage
    | none => cfg.StatusCodeToMessage (StatusCode cfg err)

/-- `UserMessage(err)`. -/
def UserMessage (cfg : Config) (err : error) : String :=
  match err with
  | error.nil => ""
  | err =>
    match errorsAs error.asUserMessenger err with
    | some um => um.UserMessage
    | none => cfg.DefaultErrorMessage

/-- `WithCodeAndMessage(err, code, msg)`. -/
def WithCodeAndMessage (err : error) (code : Int) (msg : String) : error :=
  WithStatusCode (WithUserMessage err msg) code

/-- `New(code, format, v...)`; `none` when the formatting call is outside the
fragment of `doPrintf`. -/
def New (code : Int) (format : String) (v : List Arg) : Option error :=
  (fmtErrorf format v).map fun err => WithStatusCode err code

/-- The node is a `statusCoder` struct. -/
def error.isStatusCoder : error → Bool
  | error.statusCoder _ _ => true
  | _ => false

/-- The node is a `messenger` struct. -/
def error.isMessenger : error → Bool
  | error.messenger _ _ => true
  | _ => false

/-- The node has the status-code capability: it is assignable to
`StatusCoder`. -/
def error.hasStatusCode (e : error) : Bool := e.asStatusCoder.isSome

/-- The node has the message capability: it is assignable to
`UserMessenger`. -/
def error.hasUserMessage (e : error) : Bool := e.asUserMessenger.isSome

/-- Go's `strings.Contains(s, substr)`. -/
def stringsContains (s substr : String) : Prop := substr.toList <:+: s.toList

instance (s substr : String) : Decidable (stringsContains s substr) := by
  unfold stringsContains; infer_instance

/-- A configuration in which only the code→text function has been replaced. -/
def customTextConfig : Config :=
  { defaultConfig with StatusCodeToMessage := fun _ => "custom" }

/-- What Go's `==` and `Comparable()` see of a plain node beyond its text and
cause: either the node is a pointer, as the `*errors.errorString` of
`errors.New` and the `*fmt.wrapError` of `fmt.Errorf` are, and is identified by
its address; or its dynamic type, named by `typ`, is not comparable (an error
type built on a slice or a map). -/
inductive Identity where
  | pointer (addr : Nat) : Identity
  | uncomparable (typ : Nat) : Identity
  deriving DecidableEq, Repr

/-- An error value together with the identity of its plain nodes: what
`errors.Is` observes.  Forgetting the identities gives the `error` that the
accessors see. -/
inductive errorValue where
  | nil : errorValue
  | plain (id : Identity) (text : String) (cause : errorValue) : errorValue
  | statusCoder (err : errorValue) (code : Int) : errorValue
  | messenger (err : errorValue) (msg : String) : errorValue
  deriving DecidableEq, Repr

/-- The error value without the identities of its plain nodes. -/
def errorValue.toError : errorValue → error
  | errorValue.nil => error.nil
  | errorValue.plain _ text cause => error.plain text cause.toError
  | errorValue.statusCoder err code => error.statusCoder err.toError code
  | errorValue.messenger err msg => error.messenger err.toError msg

/-- Go's `reflectlite.TypeOf(v).Comparable()` for a non-nil value: a pointer
is comparable, the struct types `statusCoder` and `messenger` are (an interface
field and an `int` or `string` field), an uncomparable plain type is not. -/
def errorValue.comparable : errorValue → Bool
  | errorValue.nil => false
  | errorValue.plain (Identity.pointer _) _ _ => true
  | errorValue.plain (Identity.uncomparable _) _ _ => false
  | errorValue.statusCoder _ _ => true
  | errorValue.messenger _ _ => true

/-- Go's `==` on two interface values of type `error`; `none` is the run-time
panic of comparing two values of the same uncomparable dynamic type.  Values
of different dynamic types are unequal; pointers are equal when their
addresses are; structs are compared field by field in source order, stopping
at the first difference. -/
def errorValue.eq : errorValue → errorValue → Option Bool
  | errorValue.nil, errorValue.nil => some true
  | errorValue.plain (Identity.pointer a) _ _, errorValue.plain (Identity.pointer b) _ _ =>
    some (decide (a = b))
  | errorValue.plain (Identity.uncomparable s) _ _,
      errorValue.plain (Identity.uncomparable t) _ _ =>
    if s = t then none else some false
  | errorValue.statusCoder a c, errorValue.statusCoder b d =>
    match errorValue.eq a b with
    | none => none
    | some false => some false
    | some true => some (decide (c = d))
  | errorValue.messenger a m, errorValue.messenger b n =>
    match errorValue.eq a b with
    | none => none
    | some false => some false
    | some true => some (decide (m = n))
  | _, _ => some false

/-- The loop `is` of Go's `errors.Is`: when the target is comparable compare
the node with the target and return `true` if they are equal; no node of the
closed set has an `Is` method; then follow `Unwrap` and return `false` once it
returns `nil`.  `none` is a panic of the comparison. -/
def errorsIsLoop (target : errorValue) (targetComparable : Bool) :
    errorValue → Option Bool
  | errorValue.nil => some false
  | errorValue.plain id text cause =>
    match (if targetComparable then (errorValue.plain id text cause).eq target
      else some false) with
    | none => none
    | some true => some true
    | some false => errorsIsLoop target targetComparable cause
  | errorValue.statusCoder err code =>
    match (if targetComparable then (errorValue.statusCoder err code).eq target
      else some false) with
    | none => none
    | some true => some true
    | some false => errorsIsLoop target targetComparable err
  | errorValue.messenger err msg =>
    match (if targetComparable then (errorValue.messenger err msg).eq target
      else some false) with
    | none => none
    | some true => some true
    | some false => errorsIsLoop target targetComparable err

/-- Go's `errors.Is(err, target)`: when either side is `nil` the result is
`err == target`; otherwise that of the loop, with the comparability of the
target's dynamic type. -/
def errorsIs (err target : errorValue) : Option Bool :=
  if err = errorValue.nil ∨ target = errorValue.nil then some (decide (err = target))
  else errorsIsLoop target target.comparable err

/-- `WithStatusCode(err, code)` on values with identity; `addr` is the address
of the `*errors.errorString` that `errors.New` allocates when `err` is nil. -/
def errorValue.WithStatusCode (addr : Nat) (err : errorValue) (code : Int) : errorValue :=
  match err with
  | errorValue.nil =>
    errorValue.statusCoder
      (errorValue.plain (Identity.pointer addr) (httpStatusText code) errorValue.nil) code
  | err => errorValue.statusCoder err code

/-- `WithUserMessage(err, msg)` on values with identity; `addr` is the address
of the `*errors.errorString` that `errors.New` allocates when `err` is nil. -/
def errorValue.WithUserMessage (addr : Nat) (err : errorValue) (msg : String) : errorValue :=
  match err with
  | errorValue.nil =>
    errorValue.messenger
      (errorValue.plain (Identity.pointer addr) ("UserMessage<" ++ msg ++ ">") errorValue.nil)
      msg
  | err => errorValue.messenger err msg

/-- Every decorator reachable along the cause chain owns a non-nil cause. -/
def error.wellFormed : error → Bool
  | error.nil => true
  | error.plain _ cause => cause.wellFormed
  | error.statusCoder err _ => decide (err ≠ error.nil) && err.wellFormed
  | error.messenger err _ => decide (err ≠ error.nil) && err.wellFormed

/-- The loop of `errors.As` run with a bound on the number of nodes it may
visit: `none` when the bound is used up before the loop returns, `some r` with
the result `r` of the search otherwise. -/
def errorsAsFuel {α : Type} (assignable : error → Option α) :
    Nat → error → Option (Option α)
  | _, error.nil => some none
  | 0, _ => none
  | fuel + 1, error.plain text cause =>
    match assignable (error.plain text cause) with
    | some v => some (some v)
    | none => errorsAsFuel assignable fuel cause
  | fuel + 1, error.statusCoder err code =>
    match assignable (error.statusCoder err code) with
    | some v => some (some v)
    | none => errorsAsFuel assignable fuel err
  | fuel + 1, error.messenger err msg =>
    match assignable (error.messenger err msg) with
    | some v => some (some v)
    | none => errorsAsFuel assignable fuel err

/-- The method `StatusCode() int` run with a bound on the depth of nested
calls and searches: `messenger.StatusCode` spends one unit and runs its search
and the method of what it finds with the rest; `none` when the bound is used
up. -/
def StatusCoder.StatusCodeFuel (cfg : Config) : Nat → StatusCoder → Option Int
  | 0, _ => none
  | _ + 1, StatusCoder.statusCoder _ code => some code
  | fuel + 1, StatusCoder.messenger err _ =>
    match errorsAsFuel error.asStatusCoder fuel err with
    | none => none
    | some none => some cfg.StatusCodeMsg
    | some (some sc) => StatusCoder.StatusCodeFuel cfg fuel sc

/-- `StatusCode(err)` run with the bound `fuel`. -/
def StatusCodeFuel (cfg : Config) (fuel : Nat) (err : error) : Option Int :=
  match err with
  | error.nil => some cfg.StatusCodeNoErr
  | err =>
    match errorsAsFuel error.asStatusCoder fuel err with
    | none => none
    | some none => some cfg.StatusCodeErr
    | some (some sc) => sc.StatusCodeFuel cfg fuel

/-- `UserMessage(err)` run with the bound `fuel`. -/
def UserMessageFuel (cfg : Config) (fuel : Nat) (err : error) : Option String :=
  match err with
  | error.nil => some ""
  | err =>
    match errorsAsFuel error.asUserMessenger fuel err with
    | none => none
    | some none => some cfg.DefaultErrorMessage
    | some (some um) => some um.UserMessage

/-- `UserMessageStatus(err)` run with the bound `fuel`. -/
def UserMessageStatusFuel (cfg : Config) (fuel : Nat) (err : error) : Option String :=
  match err with
  | error.nil => some ""
  | err =>
    match errorsAsFuel error.asUserMessenger fuel err with
    | none => none
    | some none => (StatusCodeFuel cfg fuel err).map cfg.StatusCodeToMessage
    | some (some um) => some um.UserMessage

/-- The reference function of the status code, after the words of the
specification: the stored code of the outer-most status-coder decorator of the
chain if there is one; otherwise `StatusCodeMsg` if the chain contains a
user-messenger; otherwise `StatusCodeErr`. -/
def statusCodeReference (cfg : Config) (e : error) : Int :=
  match (chain e).find? error.isStatusCoder with
  | some (error.statusCoder _ code) => code
  | _ => if (chain e).any error.isMessenger then cfg.StatusCodeMsg else cfg.StatusCodeErr

/-! ## Unfolding lemmas -/

theorem StatusCoder.StatusCode_statusCoder (cfg : Config) (err : error) (code : Int) :
    (StatusCoder.statusCoder err code).StatusCode cfg = code := by
  rw [StatusCoder.StatusCode]

theorem StatusCoder.StatusCode_messenger (cfg : Config) (err : error) (msg : String) :
    (StatusCoder.messenger err msg).StatusCode cfg =
      match errorsAs error.asStatusCoder err with
      | some sc => sc.StatusCode cfg
      | none => cfg.StatusCodeMsg := by
  rw [StatusCoder.StatusCode]
  split <;> rename_i h <;> simp [h]

theorem WithStatusCode_nil (code : Int) :
    WithStatusCode error.nil code =
      error.statusCoder (errorsNew (httpStatusText code)) code := rfl

theorem WithStatusCode_of_ne_nil {err : error} (h : err ≠ error.nil) (code : Int) :
    WithStatusCode err code = error.statusCoder err code := by
  cases err <;> first | exact absurd rfl h | rfl

theorem WithUserMessage_nil (msg : String) :
    WithUserMessage error.nil msg =
      error.messenger (errorsNew ("UserMessage<" ++ msg ++ ">")) msg := rfl

theorem WithUserMessage_of_ne_nil {err : error} (h : err ≠ error.nil) (msg : String) :
    WithUserMessage err msg = error.messenger err msg := by
  cases err <;> first | exact absurd rfl h | rfl

theorem StatusCode_of_ne_nil (cfg : Config) {err : error} (h : err ≠ error.nil) :
    StatusCode cfg err =
      match errorsAs error.asStatusCoder err with
      | some sc => sc.StatusCode cfg
      | none => cfg.StatusCodeErr := by
  cases err <;> first | exact absurd rfl h | rfl

theorem UserMessage_of_ne_nil (cfg : Config) {err : error} (h : err ≠ error.nil) :
    UserMessage cfg err =
      match errorsAs error.asUserMessenger err with
      | some um => um.UserMessage
      | none => cfg.DefaultErrorMessage := by
  cases err <;> first | exact absurd rfl h | rfl

theorem UserMessageStatus_of_ne_nil (cfg : Config) {err : error} (h : err ≠ error.nil) :
    UserMessageStatus cfg err =
      match errorsAs error.asUserMessenger err with
      | some um => um.UserMessage
      | none => cfg.StatusCodeToMessage (StatusCode cfg err) := by
  cases err <;> first | exact absurd rfl h | rfl

/-- The search for a `StatusCoder` finds something exactly when some node of
the chain has the status-code capability. -/
theorem errorsAs_asStatusCoder_isSome (e : error) :
    (errorsAs error.asStatusCoder e).isSome = (chain e).any error.hasStatusCode := by
  induction e with
  | nil => rfl
  | plain text cause ih =>
    simp [errorsAs, error.asStatusCoder, chain, error.hasStatusCode, ih]
  | statusCoder err code _ =>
    simp [errorsAs, error.asStatusCoder, chain, error.hasStatusCode]
  | messenger err msg _ =>
    simp [errorsAs, error.asStatusCoder, chain, error.hasStatusCode]

/-- The search for a `UserMessenger` finds something exactly when some node of
the chain is a `messenger`. -/
theorem errorsAs_asUserMessenger_isSome (e : error) :
    (errorsAs error.asUserMessenger e).isSome = (chain e).any error.isMessenger := by
  induction e with
  | nil => rfl
  | plain text cause ih =>
    simp [errorsAs, error.asUserMessenger, chain, error.isMessenger, ih]
  | statusCoder err code ih =>
    simp [errorsAs, error.asUserMessenger, chain, error.isMessenger, ih]
  | messenger err msg _ =>
    simp [errorsAs, error.asUserMessenger, chain, error.isMessenger]

/-! ## Status code of decorated errors -/

/-- C1: for every error `e` (nil, plain or decorated at any depth) and every
code `c`, `StatusCode(WithStatusCode(e, c)) == c`: the outer-most status-coder
wins over anything deeper in the chain. -/
theorem statusCode_withStatusCode (cfg : Config) (e : error) (c : Int) :
    StatusCode cfg (WithStatusCode e c) = c := by
  cases e <;>
    simp [WithStatusCode, StatusCode, errorsAs, error.asStatusCoder,
      StatusCoder.StatusCode_statusCoder]

/-- C2: for every error `e` (including nil) and every message `m`, the cause
of `WithUserMessage(e, m)` is `e` itself, or the sentinel when `e` is nil, and
`StatusCode(WithUserMessage(e, m))` is the status code of that cause when its
chain contains a node with the status-code capability and `StatusCodeMsg`
otherwise; `StatusCode(WithUserMessage(WithStatusCode(p, 500), "msg1")) == 500`
and, with the initial configuration, `StatusCode(WithUserMessage(nil, "xxx"))
== 400`. -/
theorem statusCode_withUserMessage (cfg : Config) (e : error) (m : String) :
    errorsUnwrap (WithUserMessage e m)
        = (if e = error.nil then errorsNew ("UserMessage<" ++ m ++ ">") else e)
      ∧ StatusCode cfg (WithUserMessage e m)
        = (if (chain (errorsUnwrap (WithUserMessage e m))).any error.hasStatusCode
            then StatusCode cfg (errorsUnwrap (WithUserMessage e m))
            else cfg.StatusCodeMsg)
      ∧ StatusCode cfg (WithUserMessage e m)
        = (match errorsAs error.asStatusCoder (errorsUnwrap (WithUserMessage e m)) with
            | some sc => sc.StatusCode cfg
            | none => cfg.StatusCodeMsg)
      ∧ (∀ p : error, StatusCode cfg (WithUserMessage (WithStatusCode p 500) "msg1") = 500)
      ∧ StatusCode defaultConfig (WithUserMessage error.nil "xxx") = 400 := by
  have hcause : errorsUnwrap (WithUserMessage e m)
      = (if e = error.nil then errorsNew ("UserMessage<" ++ m ++ ">") else e) := by
    cases e <;> simp [WithUserMessage, errorsUnwrap]
  have hmsgr : ∀ x : error, StatusCode cfg (error.messenger x m)
      = (match errorsAs error.asStatusCoder x with
          | some sc => sc.StatusCode cfg
          | none => cfg.StatusCodeMsg) := by
    intro x
    simp [StatusCode, errorsAs, error.asStatusCoder, StatusCoder.StatusCode_messenger]
  have hwith : WithUserMessage e m = error.messenger (errorsUnwrap (WithUserMessage e m)) m := by
    cases e <;> simp [WithUserMessage, errorsUnwrap]
  have hsearch : StatusCode cfg (WithUserMessage e m)
      = (match errorsAs error.asStatusCoder (errorsUnwrap (WithUserMessage e m)) with
          | some sc => sc.StatusCode cfg
          | none => cfg.StatusCodeMsg) := by
    conv_lhs => rw [hwith]
    exact hmsgr _
  refine ⟨hcause, ?_, hsearch, ?_, ?_⟩
  · rw [hsearch, ← errorsAs_asStatusCoder_isSome]
    generalize errorsUnwrap (WithUserMessage e m) = x
    cases hx : errorsAs error.asStatusCoder x with
    | none => simp
    | some sc =>
      have hne : x ≠ error.nil := by
        intro h; subst h; simp [errorsAs] at hx
      simp [StatusCode_of_ne_nil cfg hne, hx]
  · intro p
    cases p <;>
      simp [WithStatusCode, WithUserMessage, StatusCode, errorsAs, error.asStatusCoder,
        StatusCoder.StatusCode_messenger, StatusCoder.StatusCode_statusCoder]
  · simp [WithUserMessage, StatusCode, errorsAs, error.asStatusCoder, errorsNew,
      StatusCoder.StatusCode_messenger, defaultConfig]

/-- The search for a `UserMessenger` from a `messenger` node stops at that
node. -/
theorem UserMessage_messenger (cfg : Config) (err : error) (msg : String) :
    UserMessage cfg (error.messenger err msg) = msg := by
  simp [UserMessage, errorsAs, error.asUserMessenger, UserMessenger.UserMessage]

theorem UserMessageStatus_messenger (cfg : Config) (err : error) (msg : String) :
    UserMessageStatus cfg (error.messenger err msg) = msg := by
  simp [UserMessageStatus, errorsAs, error.asUserMessenger, UserMessenger.UserMessage]

/-- `WithUserMessage` always builds a `messenger` node holding the message. -/
theorem WithUserMessage_eq_messenger (e : error) (m : String) :
    WithUserMessage e m = error.messenger (errorsUnwrap (WithUserMessage e m)) m := by
  cases e <;> simp [WithUserMessage, errorsUnwrap]

/-- The searches pass through a plain node to its cause. -/
theorem errorsAs_asStatusCoder_plain (text : String) (cause : error) :
    errorsAs error.asStatusCoder (error.plain text cause)
      = errorsAs error.asStatusCoder cause := by
  simp [errorsAs, error.asStatusCoder]

theorem errorsAs_asUserMessenger_plain (text : String) (cause : error) :
    errorsAs error.asUserMessenger (error.plain text cause)
      = errorsAs error.asUserMessenger cause := by
  simp [errorsAs, error.asUserMessenger]

/-- The search for a `UserMessenger` passes through a `statusCoder` node. -/
theorem errorsAs_asUserMessenger_statusCoder (err : error) (code : Int) :
    errorsAs error.asUserMessenger (error.statusCoder err code)
      = errorsAs error.asUserMessenger err := by
  simp [errorsAs, error.asUserMessenger]

/-- C3: for every error `e` (including nil), code `c` and message `m`,
`WithCodeAndMessage(e, c, m)` is `WithStatusCode(WithUserMessage(e, m), c)`, its
`StatusCode` is `c` and its `UserMessage` is `m`. -/
theorem withCodeAndMessage_spec (cfg : Config) (e : error) (c : Int) (m : String) :
    WithCodeAndMessage e c m = WithStatusCode (WithUserMessage e m) c
      ∧ StatusCode cfg (WithCodeAndMessage e c m) = c
      ∧ UserMessage cfg (WithCodeAndMessage e c m) = m := by
  refine ⟨rfl, ?_, ?_⟩
  · cases e <;>
      simp [WithCodeAndMessage, WithUserMessage, WithStatusCode, StatusCode, errorsAs,
        error.asStatusCoder, StatusCoder.StatusCode_statusCoder]
  · cases e <;>
      simp [WithCodeAndMessage, WithUserMessage, WithStatusCode, UserMessage, errorsAs,
        error.asUserMessenger, UserMessenger.UserMessage]

/-- C4: for every error `e` (nil, plain, or already carrying user-messengers
deeper in its chain) and every message `m`, `UserMessage(WithUserMessage(e, m))
== m` and `UserMessageStatus(WithUserMessage(e, m)) == m`: the search stops at
the outer-most node that has the message capability. -/
theorem userMessage_withUserMessage (cfg : Config) (e : error) (m : String) :
    UserMessage cfg (WithUserMessage e m) = m
      ∧ UserMessageStatus cfg (WithUserMessage e m) = m := by
  rw [WithUserMessage_eq_messenger e m]
  exact ⟨UserMessage_messenger cfg _ m, UserMessageStatus_messenger cfg _ m⟩

/-- C5: for every non-nil error `e` whose chain contains no status-coder and
no user-messenger, `StatusCode(e)` is the bare-error default `StatusCodeErr`
(initially 500) and `UserMessage(e)` is `DefaultErrorMessage`. -/
theorem undecorated_defaults (cfg : Config) (e : error) (hne : e ≠ error.nil)
    (hsc : (chain e).any error.isStatusCoder = false)
    (hum : (chain e).any error.isMessenger = false) :
    StatusCode cfg e = cfg.StatusCodeErr
      ∧ UserMessage cfg e = cfg.DefaultErrorMessage
      ∧ defaultConfig.StatusCodeErr = 500 := by
  have h1 : errorsAs error.asStatusCoder e = none := by
    have hcap : (chain e).any error.hasStatusCode = false := by
      rw [List.any_eq_false] at hsc hum ⊢
      intro n hn
      have a := hsc n hn
      have b := hum n hn
      cases n <;> simp_all [error.hasStatusCode, error.asStatusCoder,
        error.isStatusCoder, error.isMessenger]
    have := errorsAs_asStatusCoder_isSome e
    rw [hcap] at this
    simpa using this
  have h2 : errorsAs error.asUserMessenger e = none := by
    have := errorsAs_asUserMessenger_isSome e
    rw [hum] at this
    simpa using this
  refine ⟨?_, ?_, rfl⟩
  · rw [StatusCode_of_ne_nil cfg hne, h1]
  · rw [UserMessage_of_ne_nil cfg hne, h2]

/-- Witness of C5 at `errors.New("")` and at a wrapper of a plain error. -/
theorem undecorated_defaults_witness :
    errorsNew "" ≠ error.nil
      ∧ (chain (errorsNew "")).any error.isStatusCoder = false
      ∧ (chain (errorsNew "")).any error.isMessenger = false
      ∧ StatusCode defaultConfig (errorsNew "") = 500
      ∧ UserMessage defaultConfig (errorsNew "") = "An unexpected error occured."
      ∧ StatusCode defaultConfig (error.plain "a: b" (errorsNew "b")) = 500 :=
  ⟨by decide, by decide, by decide,
   (undecorated_defaults defaultConfig (errorsNew "") (by decide) (by decide)
      (by decide)).1,
   (undecorated_defaults defaultConfig (errorsNew "") (by decide) (by decide)
      (by decide)).2.1,
   (undecorated_defaults defaultConfig (error.plain "a: b" (errorsNew "b")) (by decide)
      (by decide) (by decide)).1⟩

/-! ## Fallbacks of the message accessors -/

/-- Without a `messenger` in the chain the search for a `UserMessenger` finds
nothing. -/
theorem errorsAs_asUserMessenger_eq_none {e : error}
    (h : (chain e).any error.isMessenger = false) :
    errorsAs error.asUserMessenger e = none := by
  have := errorsAs_asUserMessenger_isSome e
  rw [h] at this
  simpa using this

/-- With a `messenger` in the chain both message accessors return the message
that the search finds. -/
theorem userMessageStatus_eq_userMessage_of_found (cfg : Config) (e : error)
    (h : (chain e).any error.isMessenger = true) :
    UserMessageStatus cfg e = UserMessage cfg e := by
  have hs := errorsAs_asUserMessenger_isSome e
  rw [h] at hs
  have hne : e ≠ error.nil := by
    intro h0; subst h0; simp [chain] at h
  rw [UserMessageStatus_of_ne_nil cfg hne, UserMessage_of_ne_nil cfg hne]
  cases hx : errorsAs error.asUserMessenger e with
  | none => simp [hx] at hs
  | some um => rfl

/-- C6: the code at the inputs of the tests `TestGetMsg/default` and
`TestNew/flat`, in the initial configuration: the chain of `errors.New("")`
has no user-messenger, the code→text mapping of its status code is
`"Internal Server Error"`, but `UserMessage` returns the fixed
`DefaultErrorMessage`; likewise `UserMessage(New(404, "hello %s", "world"))` is
`DefaultErrorMessage` and not `"Not Found"`.  The sibling accessor
`UserMessageStatus` returns the status text at both inputs. -/
theorem userMessage_not_status_text :
    errorsNew "" ≠ error.nil
      ∧ (chain (errorsNew "")).any error.isMessenger = false
      ∧ UserMessage defaultConfig (errorsNew "") = "An unexpected error occured."
      ∧ defaultConfig.StatusCodeToMessage (StatusCode defaultConfig (errorsNew ""))
          = "Internal Server Error"
      ∧ UserMessage defaultConfig (errorsNew "")
          ≠ defaultConfig.StatusCodeToMessage (StatusCode defaultConfig (errorsNew ""))
      ∧ (New 404 "hello %s" [Arg.str "world"]).map (UserMessage defaultConfig)
          = some "An unexpected error occured."
      ∧ (New 404 "hello %s" [Arg.str "world"]).map (UserMessage defaultConfig)
          ≠ some "Not Found"
      ∧ UserMessageStatus defaultConfig (errorsNew "") = "Internal Server Error"
      ∧ (New 404 "hello %s" [Arg.str "world"]).map (UserMessageStatus defaultConfig)
          = some "Not Found" := by
  have h1 : UserMessage defaultConfig (errorsNew "") = "An unexpected error occured." := by
    simp [UserMessage, errorsNew, errorsAs, error.asUserMessenger, defaultConfig]
  have h2 : defaultConfig.StatusCodeToMessage (StatusCode defaultConfig (errorsNew ""))
      = "Internal Server Error" := by
    simp [StatusCode, errorsNew, errorsAs, error.asStatusCoder, defaultConfig]
    decide
  have h3 : (New 404 "hello %s" [Arg.str "world"]).map (UserMessage defaultConfig)
      = some "An unexpected error occured." := by
    have : New 404 "hello %s" [Arg.str "world"]
        = some (error.statusCoder (error.plain "hello world" error.nil) 404) := by decide
    rw [this]
    simp [UserMessage, errorsAs, error.asUserMessenger, defaultConfig]
  have hnew : New 404 "hello %s" [Arg.str "world"]
      = some (error.statusCoder (error.plain "hello world" error.nil) 404) := by decide
  refine ⟨by decide, by decide, h1, h2, ?_, h3, ?_, ?_, ?_⟩
  · rw [h1, h2]; decide
  · rw [h3]; decide
  · simp [UserMessageStatus, StatusCode, errorsNew, errorsAs, error.asUserMessenger,
      error.asStatusCoder, defaultConfig]
    decide
  · rw [hnew]
    simp [UserMessageStatus, StatusCode, errorsAs, error.asUserMessenger,
      error.asStatusCoder, StatusCoder.StatusCode_statusCoder, defaultConfig]
    decide

/-- The two no-match fallbacks: for every non-nil error `e` whose chain
contains no user-messenger, `UserMessage(e)` is `DefaultErrorMessage` and
`UserMessageStatus(e)` is the code→text mapping applied to `StatusCode(e)`. -/
theorem userMessage_fallbacks (cfg : Config) (e : error) (hne : e ≠ error.nil)
    (hum : (chain e).any error.isMessenger = false) :
    UserMessage cfg e = cfg.DefaultErrorMessage
      ∧ UserMessageStatus cfg e = cfg.StatusCodeToMessage (StatusCode cfg e) := by
  have h2 := errorsAs_asUserMessenger_eq_none hum
  constructor
  · rw [UserMessage_of_ne_nil cfg hne, h2]
  · rw [UserMessageStatus_of_ne_nil cfg hne, h2]

/-- The two no-match fallbacks at the error built by
`New(404, "hello %s", "world")`. -/
theorem userMessage_fallbacks_witness :
    New 404 "hello %s" [Arg.str "world"]
        = some (error.statusCoder (error.plain "hello world" error.nil) 404)
      ∧ UserMessage defaultConfig (error.statusCoder (error.plain "hello world" error.nil) 404)
        = "An unexpected error occured."
      ∧ UserMessageStatus defaultConfig
          (error.statusCoder (error.plain "hello world" error.nil) 404)
        = defaultConfig.StatusCodeToMessage
            (StatusCode defaultConfig
              (error.statusCoder (error.plain "hello world" error.nil) 404)) :=
  ⟨by decide,
   (userMessage_fallbacks defaultConfig
      (error.statusCoder (error.plain "hello world" error.nil) 404)
      (by decide) (by decide)).1,
   (userMessage_fallbacks defaultConfig
      (error.statusCoder (error.plain "hello world" error.nil) 404)
      (by decide) (by decide)).2⟩

/-- C7: `UserMessageStatus(e)` is `UserMessage(e)` when `e` is nil or its
chain contains a user-messenger, and `StatusCodeToMessage(StatusCode(e))`
otherwise, where `UserMessage(e)` is `DefaultErrorMessage`: the two accessors
differ only in the no-match fallback. -/
theorem userMessageStatus_spec (cfg : Config) (e : error) :
    UserMessageStatus cfg e
        = (if e = error.nil ∨ (chain e).any error.isMessenger = true
            then UserMessage cfg e
            else cfg.StatusCodeToMessage (StatusCode cfg e))
      ∧ UserMessage cfg e
        = (if e = error.nil ∨ (chain e).any error.isMessenger = true
            then UserMessageStatus cfg e
            else cfg.DefaultErrorMessage) := by
  by_cases hnil : e = error.nil
  · subst hnil
    simp [UserMessageStatus, UserMessage]
  · cases hum : (chain e).any error.isMessenger with
    | true =>
      have := userMessageStatus_eq_userMessage_of_found cfg e hum
      simp [this]
    | false =>
      have h2 := errorsAs_asUserMessenger_eq_none hum
      simp [hnil, UserMessageStatus_of_ne_nil cfg hnil, UserMessage_of_ne_nil cfg hnil, h2]

/-- C8: on a nil error the accessors return their no-error values:
`StatusCode(nil) == StatusCodeNoErr` (initially 200), `UserMessage(nil) == ""`
and `UserMessageStatus(nil) == ""`, whatever the configuration. -/
theorem accessors_nil (cfg : Config) :
    StatusCode cfg error.nil = cfg.StatusCodeNoErr
      ∧ StatusCode defaultConfig error.nil = 200
      ∧ UserMessage cfg error.nil = ""
      ∧ UserMessageStatus cfg error.nil = "" :=
  ⟨rfl, rfl, rfl, rfl⟩

/-! ## Plain wrappers and the sentinel of `WithStatusCode` -/

/-- C9: for every non-nil error `d` and every plain wrapper whose direct
cause is `d`, `StatusCode`, `UserMessage` and `UserMessageStatus` of the
wrapper are those of `d`; so the wrapper of `WithStatusCode(e, c)` has status
code `c` and the wrapper of `WithUserMessage(e, m)` has user message `m`. -/
theorem plain_wrapper_preserves (cfg : Config) (text : String) (d : error)
    (hd : d ≠ error.nil) :
    StatusCode cfg (error.plain text d) = StatusCode cfg d
      ∧ UserMessage cfg (error.plain text d) = UserMessage cfg d
      ∧ UserMessageStatus cfg (error.plain text d) = UserMessageStatus cfg d
      ∧ (∀ (e : error) (c : Int),
          StatusCode cfg (error.plain text (WithStatusCode e c)) = c)
      ∧ (∀ (e : error) (m : String),
          UserMessage cfg (error.plain text (WithUserMessage e m)) = m) := by
  have hw : error.plain text d ≠ error.nil := by intro h; cases h
  have hsc : ∀ x : error, x ≠ error.nil →
      StatusCode cfg (error.plain text x) = StatusCode cfg x := by
    intro x hx
    have hwx : error.plain text x ≠ error.nil := by intro h; cases h
    rw [StatusCode_of_ne_nil cfg hwx, StatusCode_of_ne_nil cfg hx,
      errorsAs_asStatusCoder_plain]
  have hmsg : ∀ x : error, x ≠ error.nil →
      UserMessage cfg (error.plain text x) = UserMessage cfg x := by
    intro x hx
    have hwx : error.plain text x ≠ error.nil := by intro h; cases h
    rw [UserMessage_of_ne_nil cfg hwx, UserMessage_of_ne_nil cfg hx,
      errorsAs_asUserMessenger_plain]
  refine ⟨hsc d hd, hmsg d hd, ?_, ?_, ?_⟩
  · rw [UserMessageStatus_of_ne_nil cfg hw, UserMessageStatus_of_ne_nil cfg hd,
      errorsAs_asUserMessenger_plain, hsc d hd]
  · intro e c
    have hne : WithStatusCode e c ≠ error.nil := by
      cases e <;> simp [WithStatusCode]
    rw [hsc _ hne]
    cases e <;>
      simp [WithStatusCode, StatusCode, errorsAs, error.asStatusCoder,
        StatusCoder.StatusCode_statusCoder]
  · intro e m
    have hne : WithUserMessage e m ≠ error.nil := by
      cases e <;> simp [WithUserMessage]
    rw [hmsg _ hne, WithUserMessage_eq_messenger e m]
    exact UserMessage_messenger cfg _ m

/-- Witness of C9 at the wrapper `fmt.Errorf("wrapping: %w", base)` of
`base = WithStatusCode(errors.New(""), 5)`. -/
theorem plain_wrapper_preserves_witness :
    fmtErrorf "wrapping: %w" [Arg.err (WithStatusCode (errorsNew "") 5)]
        = some (error.plain "wrapping: " (WithStatusCode (errorsNew "") 5))
      ∧ WithStatusCode (errorsNew "") 5 ≠ error.nil
      ∧ StatusCode defaultConfig (error.plain "wrapping: " (WithStatusCode (errorsNew "") 5))
        = StatusCode defaultConfig (WithStatusCode (errorsNew "") 5)
      ∧ StatusCode defaultConfig (error.plain "wrapping: " (WithStatusCode (errorsNew "") 5))
        = 5 :=
  ⟨by decide, by decide,
   (plain_wrapper_preserves defaultConfig "wrapping: " (WithStatusCode (errorsNew "") 5)
      (by decide)).1,
   (plain_wrapper_preserves defaultConfig "wrapping: " (WithStatusCode (errorsNew "") 5)
      (by decide)).2.2.2.1 (errorsNew "") 5⟩

/-- C10, as the code has it: with the code→text function configured to
another mapping, the display text of `WithStatusCode(nil, 404)` is still
`"Not Found"`; it is not the configured text for 404 and does not contain
it. -/
theorem withStatusCode_nil_ignores_config :
    (WithStatusCode error.nil 404).Error = some "Not Found"
      ∧ customTextConfig.StatusCodeToMessage 404 = "custom"
      ∧ (WithStatusCode error.nil 404).Error
          ≠ some (customTextConfig.StatusCodeToMessage 404)
      ∧ ¬ stringsContains "Not Found" (customTextConfig.StatusCodeToMessage 404) := by
  refine ⟨by decide, rfl, ?_, ?_⟩
  · have h1 : (WithStatusCode error.nil 404).Error = some "Not Found" := by decide
    have h2 : customTextConfig.StatusCodeToMessage 404 = "custom" := rfl
    rw [h1, h2]; decide
  · have h2 : customTextConfig.StatusCodeToMessage 404 = "custom" := rfl
    rw [h2]; decide

/-- C10, amended: for every code `c` the display text of
`WithStatusCode(nil, c)` is `http.StatusText(c)`, which is
`StatusCodeToMessage(c)` in the initial configuration, and it contains
`http.StatusText(c)`; the configuration is not consulted. -/
theorem withStatusCode_nil_text (c : Int) :
    (WithStatusCode error.nil c).Error = some (httpStatusText c)
      ∧ (WithStatusCode error.nil c).Error = some (defaultConfig.StatusCodeToMessage c)
      ∧ (∃ t : String, (WithStatusCode error.nil c).Error = some t
          ∧ stringsContains t (httpStatusText c)) := by
  have h : (WithStatusCode error.nil c).Error = some (httpStatusText c) := rfl
  exact ⟨h, h, httpStatusText c, h, List.infix_refl _⟩

/-! ## Display text and cause of a decorated error -/

/-- C11: for every message `m`, the display text of `WithUserMessage(nil, m)`
is exactly `"UserMessage<" ++ m ++ ">"` (`"UserMessage<a>"` for `m = "a"`),
while `UserMessage` of that error is `m` itself. -/
theorem withUserMessage_nil_text (cfg : Config) (m : String) :
    (WithUserMessage error.nil m).Error = some ("UserMessage<" ++ m ++ ">")
      ∧ UserMessage cfg (WithUserMessage error.nil m) = m
      ∧ (WithUserMessage error.nil "a").Error = some "UserMessage<a>" := by
  refine ⟨rfl, ?_, by decide⟩
  rw [WithUserMessage_nil]
  exact UserMessage_messenger cfg _ m

/-- C12: decoration does not alter the diagnostic text: for every non-nil
error `e`, the display text of `WithStatusCode(e, c)` and that of
`WithUserMessage(e, m)` are the display text of `e`. -/
theorem decoration_keeps_text (e : error) (c : Int) (m : String) (hne : e ≠ error.nil) :
    (WithStatusCode e c).Error = e.Error
      ∧ (WithUserMessage e m).Error = e.Error := by
  rw [WithStatusCode_of_ne_nil hne, WithUserMessage_of_ne_nil hne]
  exact ⟨rfl, rfl⟩

/-- Witness of C12 at `errors.New("hello")`, code 400 and message `"a"`. -/
theorem decoration_keeps_text_witness :
    errorsNew "hello" ≠ error.nil
      ∧ (WithStatusCode (errorsNew "hello") 400).Error = some "hello"
      ∧ (WithUserMessage (errorsNew "hello") "a").Error = some "hello" :=
  ⟨by decide,
   (decoration_keeps_text (errorsNew "hello") 400 "a" (by decide)).1,
   (decoration_keeps_text (errorsNew "hello") 400 "a" (by decide)).2⟩

/-- A non-nil error is the first node of its own chain. -/
theorem mem_chain_self {e : error} (hne : e ≠ error.nil) : e ∈ chain e := by
  cases e with
  | nil => exact absurd rfl hne
  | plain text cause => simp [chain]
  | statusCoder err code => simp [chain]
  | messenger err msg => simp [chain]

/-- Forgetting the identities turns only `nil` into `nil`. -/
theorem errorValue.toError_ne_nil {v : errorValue} (h : v ≠ errorValue.nil) :
    v.toError ≠ error.nil := by
  cases v <;> simp [errorValue.toError] at h ⊢

/-- The constructor on values with identity builds the value whose error is
the one `WithStatusCode` builds. -/
theorem toError_valueWithStatusCode (addr : Nat) (v : errorValue) (c : Int) :
    (errorValue.WithStatusCode addr v c).toError = WithStatusCode v.toError c := by
  cases v <;> rfl

theorem toError_valueWithUserMessage (addr : Nat) (v : errorValue) (m : String) :
    (errorValue.WithUserMessage addr v m).toError = WithUserMessage v.toError m := by
  cases v <;> rfl

/-- A decorator whose embedded error equals itself is made of parts of which
each equals itself. -/
theorem errorValue.eq_self_statusCoder {e : errorValue} {c : Int}
    (h : (errorValue.statusCoder e c).eq (errorValue.statusCoder e c) = some true) :
    e.eq e = some true := by
  simp only [errorValue.eq] at h
  split at h <;> simp_all

theorem errorValue.eq_self_messenger {e : errorValue} {m : String}
    (h : (errorValue.messenger e m).eq (errorValue.messenger e m) = some true) :
    e.eq e = some true := by
  simp only [errorValue.eq] at h
  split at h <;> simp_all

/-- Comparing a decorator with the value it wraps does not panic when that
value equals itself. -/
theorem errorValue.eq_decorated_isSome (e : errorValue) :
    e.eq e = some true → ∀ (c : Int) (m : String),
      ((errorValue.statusCoder e c).eq e).isSome = true
        ∧ ((errorValue.messenger e m).eq e).isSome = true := by
  induction e with
  | nil => intro _ c m; simp [errorValue.eq]
  | plain id text cause _ => intro _ c m; simp [errorValue.eq]
  | statusCoder err code ih =>
    intro h c m
    have hin := (ih (errorValue.eq_self_statusCoder h) code "").1
    constructor
    · simp only [errorValue.eq]
      cases hx : (errorValue.statusCoder err code).eq err with
      | none => simp [hx] at hin
      | some b => cases b <;> simp
    · simp [errorValue.eq]
  | messenger err msg ih =>
    intro h c m
    have hin := (ih (errorValue.eq_self_messenger h) 0 msg).2
    constructor
    · simp [errorValue.eq]
    · simp only [errorValue.eq]
      cases hx : (errorValue.messenger err msg).eq err with
      | none => simp [hx] at hin
      | some b => cases b <;> simp

/-- A non-nil value that equals itself has a comparable dynamic type. -/
theorem errorValue.comparable_of_eq_self {e : errorValue} (hne : e ≠ errorValue.nil)
    (h : e.eq e = some true) : e.comparable = true := by
  cases e with
  | nil => exact absurd rfl hne
  | plain id text cause =>
    cases id with
    | pointer a => rfl
    | uncomparable t => simp [errorValue.eq] at h
  | statusCoder err code => rfl
  | messenger err msg => rfl

/-- The loop of `errors.Is` answers `true` when it starts at a target that
equals itself. -/
theorem errorsIsLoop_self {e : errorValue} (hne : e ≠ errorValue.nil)
    (h : e.eq e = some true) : errorsIsLoop e true e = some true := by
  cases e with
  | nil => exact absurd rfl hne
  | plain id text cause => simp [errorsIsLoop, h]
  | statusCoder err code => simp [errorsIsLoop, h]
  | messenger err msg => simp [errorsIsLoop, h]

/-- C13, as the code has it: for an error `u` whose dynamic type is not
comparable (an error type built on a slice), the direct cause of
`WithStatusCode(u, 3)` is `u` itself, yet `errors.Is` of the decorated error
against `u` answers `false`, the loop never comparing with an uncomparable
target; the same holds of `WithUserMessage(u, "a")`. -/
theorem errorsIs_uncomparable_cause :
    (errorValue.plain (Identity.uncomparable 0) "invalid" errorValue.nil).toError ≠ error.nil
      ∧ errorsUnwrap (WithStatusCode
          (errorValue.plain (Identity.uncomparable 0) "invalid" errorValue.nil).toError 3)
          = (errorValue.plain (Identity.uncomparable 0) "invalid" errorValue.nil).toError
      ∧ (errorValue.WithStatusCode 0
          (errorValue.plain (Identity.uncomparable 0) "invalid" errorValue.nil) 3).toError
          = WithStatusCode
              (errorValue.plain (Identity.uncomparable 0) "invalid" errorValue.nil).toError 3
      ∧ errorsIs
          (errorValue.WithStatusCode 0
            (errorValue.plain (Identity.uncomparable 0) "invalid" errorValue.nil) 3)
          (errorValue.plain (Identity.uncomparable 0) "invalid" errorValue.nil) = some false
      ∧ errorsIs
          (errorValue.WithUserMessage 0
            (errorValue.plain (Identity.uncomparable 0) "invalid" errorValue.nil) "a")
          (errorValue.plain (Identity.uncomparable 0) "invalid" errorValue.nil) = some false := by
  refine ⟨by decide, by decide, by decide, by decide, by decide⟩

/-- C13, amended: decorating preserves the cause: for every non-nil error `x`
the direct cause of `WithStatusCode(x, c)` and of `WithUserMessage(x, m)` is
`x` itself and `x` is a node of the decorated error's cause chain; and for
every non-nil value `e` that equals itself under `==` (its dynamic type is
comparable, as that of the pointers of `errors.New` and `fmt.Errorf` and of
the decorators over them is), `errors.Is` of the decorated error against `e`
succeeds. -/
theorem decoration_keeps_cause (e : errorValue) (c : Int) (m : String) (addr : Nat)
    (hne : e ≠ errorValue.nil) (heq : e.eq e = some true) :
    (∀ x : error, x ≠ error.nil →
        errorsUnwrap (WithStatusCode x c) = x
          ∧ errorsUnwrap (WithUserMessage x m) = x
          ∧ x ∈ chain (WithStatusCode x c)
          ∧ x ∈ chain (WithUserMessage x m))
      ∧ (errorValue.WithStatusCode addr e c).toError = WithStatusCode e.toError c
      ∧ (errorValue.WithUserMessage addr e m).toError = WithUserMessage e.toError m
      ∧ errorsIs (errorValue.WithStatusCode addr e c) e = some true
      ∧ errorsIs (errorValue.WithUserMessage addr e m) e = some true := by
  have hcmp := errorValue.comparable_of_eq_self hne heq
  have hself := errorsIsLoop_self hne heq
  have hdec := errorValue.eq_decorated_isSome e heq c m
  have hsc : errorValue.WithStatusCode addr e c = errorValue.statusCoder e c := by
    cases e <;> first | exact absurd rfl hne | rfl
  have hum : errorValue.WithUserMessage addr e m = errorValue.messenger e m := by
    cases e <;> first | exact absurd rfl hne | rfl
  refine ⟨?_, toError_valueWithStatusCode addr e c,
    toError_valueWithUserMessage addr e m, ?_, ?_⟩
  · intro x hx
    rw [WithStatusCode_of_ne_nil hx, WithUserMessage_of_ne_nil hx]
    refine ⟨rfl, rfl, ?_, ?_⟩
    · simp [chain, mem_chain_self hx]
    · simp [chain, mem_chain_self hx]
  · rw [hsc]
    simp only [errorsIs, hne, or_false, reduceCtorEq, if_false, hcmp, errorsIsLoop, if_true]
    cases hx : (errorValue.statusCoder e c).eq e with
    | none => simp [hx] at hdec
    | some b => cases b <;> simp [hself]
  · rw [hum]
    simp only [errorsIs, hne, or_false, reduceCtorEq, if_false, hcmp, errorsIsLoop, if_true]
    cases hx : (errorValue.messenger e m).eq e with
    | none => simp [hx] at hdec
    | some b => cases b <;> simp [hself]

/-- Witness of the amended C13 at the pointer of `errors.New("hello")`, code 3
and message `"a"`; against the pointer of a second `errors.New("hello")` the
check answers `false`. -/
theorem decoration_keeps_cause_witness :
    errorValue.plain (Identity.pointer 1) "hello" errorValue.nil ≠ errorValue.nil
      ∧ (errorValue.plain (Identity.pointer 1) "hello" errorValue.nil).eq
          (errorValue.plain (Identity.pointer 1) "hello" errorValue.nil) = some true
      ∧ (errorValue.plain (Identity.pointer 1) "hello" errorValue.nil).toError
          = errorsNew "hello"
      ∧ errorsIs
          (errorValue.WithStatusCode 0
            (errorValue.plain (Identity.pointer 1) "hello" errorValue.nil) 3)
          (errorValue.plain (Identity.pointer 1) "hello" errorValue.nil) = some true
      ∧ errorsIs
          (errorValue.WithUserMessage 0
            (errorValue.plain (Identity.pointer 1) "hello" errorValue.nil) "a")
          (errorValue.plain (Identity.pointer 1) "hello" errorValue.nil) = some true
      ∧ errorsIs
          (errorValue.WithStatusCode 0
            (errorValue.plain (Identity.pointer 1) "hello" errorValue.nil) 3)
          (errorValue.plain (Identity.pointer 2) "hello" errorValue.nil) = some false :=
  ⟨by decide, by decide, by decide,
   (decoration_keeps_cause (errorValue.plain (Identity.pointer 1) "hello" errorValue.nil)
      3 "a" 0 (by decide) (by decide)).2.2.2.1,
   (decoration_keeps_cause (errorValue.plain (Identity.pointer 1) "hello" errorValue.nil)
      3 "a" 0 (by decide) (by decide)).2.2.2.2,
   by decide⟩

/-- C18: adding a status code leaves the message facet unchanged: for every
non-nil error `e` and every code `c`, `UserMessage(WithStatusCode(e, c)) ==
UserMessage(e)`, the search passing through the status-coder to its cause. -/
theorem userMessage_withStatusCode (cfg : Config) (e : error) (c : Int)
    (hne : e ≠ error.nil) :
    UserMessage cfg (WithStatusCode e c) = UserMessage cfg e := by
  rw [WithStatusCode_of_ne_nil hne]
  have hw : error.statusCoder e c ≠ error.nil := by intro h; cases h
  rw [UserMessage_of_ne_nil cfg hw, UserMessage_of_ne_nil cfg hne,
    errorsAs_asUserMessenger_statusCoder]

/-- Witness of C18 at a messenger and at a plain error. -/
theorem userMessage_withStatusCode_witness :
    WithUserMessage error.nil "msg1" ≠ error.nil
      ∧ UserMessage defaultConfig (WithStatusCode (WithUserMessage error.nil "msg1") 5)
        = UserMessage defaultConfig (WithUserMessage error.nil "msg1")
      ∧ UserMessage defaultConfig (WithStatusCode (errorsNew "x") 5)
        = UserMessage defaultConfig (errorsNew "x") :=
  ⟨by decide,
   userMessage_withStatusCode defaultConfig (WithUserMessage error.nil "msg1") 5 (by decide),
   userMessage_withStatusCode defaultConfig (errorsNew "x") 5 (by decide)⟩

/-! ## Well-formed chains -/

/-- C15: no constructor fails or yields a causeless decorator: for every error
`e` (including nil), `WithStatusCode(e, c)`, `WithUserMessage(e, m)` and
`WithCodeAndMessage(e, c, m)` are non-nil with a non-nil direct cause (`e`
itself when `e` is non-nil, the synthesized sentinel leaf when `e` is nil),
and when every decorator of `e` has a non-nil cause, so has every decorator of
the three results. -/
theorem constructors_wellFormed (e : error) (c : Int) (m : String)
    (hwf : e.wellFormed = true) :
    WithStatusCode e c ≠ error.nil
      ∧ errorsUnwrap (WithStatusCode e c)
          = (if e = error.nil then errorsNew (httpStatusText c) else e)
      ∧ errorsUnwrap (WithStatusCode e c) ≠ error.nil
      ∧ WithUserMessage e m ≠ error.nil
      ∧ errorsUnwrap (WithUserMessage e m)
          = (if e = error.nil then errorsNew ("UserMessage<" ++ m ++ ">") else e)
      ∧ errorsUnwrap (WithUserMessage e m) ≠ error.nil
      ∧ WithCodeAndMessage e c m ≠ error.nil
      ∧ errorsUnwrap (WithCodeAndMessage e c m) = WithUserMessage e m
      ∧ (WithStatusCode e c).wellFormed = true
      ∧ (WithUserMessage e m).wellFormed = true
      ∧ (WithCodeAndMessage e c m).wellFormed = true := by
  cases e with
  | nil =>
    simp [WithStatusCode, WithUserMessage, WithCodeAndMessage, errorsUnwrap, errorsNew,
      error.wellFormed]
  | plain text cause =>
    simp [WithStatusCode, WithUserMessage, WithCodeAndMessage, errorsUnwrap,
      error.wellFormed] at hwf ⊢
    exact hwf
  | statusCoder err code =>
    simp [WithStatusCode, WithUserMessage, WithCodeAndMessage, errorsUnwrap,
      error.wellFormed] at hwf ⊢
    exact hwf
  | messenger err msg =>
    simp [WithStatusCode, WithUserMessage, WithCodeAndMessage, errorsUnwrap,
      error.wellFormed] at hwf ⊢
    exact hwf

/-- Witness of C15 at nil and at an error that is already decorated. -/
theorem constructors_wellFormed_witness :
    error.nil.wellFormed = true
      ∧ errorsUnwrap (WithStatusCode error.nil 4) = errorsNew "" 
      ∧ errorsUnwrap (WithUserMessage error.nil "a") = errorsNew "UserMessage<a>"
      ∧ (WithCodeAndMessage error.nil 6 "xx").wellFormed = true
      ∧ (WithUserMessage (errorsNew "e") "a").wellFormed = true
      ∧ (WithStatusCode (WithUserMessage (errorsNew "e") "a") 3).wellFormed = true :=
  ⟨by decide,
   (constructors_wellFormed error.nil 4 "a" (by decide)).2.1,
   (constructors_wellFormed error.nil 4 "a" (by decide)).2.2.2.2.1,
   (constructors_wellFormed error.nil 6 "xx" (by decide)).2.2.2.2.2.2.2.2.2.2,
   (constructors_wellFormed (errorsNew "e") 3 "a" (by decide)).2.2.2.2.2.2.2.2.2.1,
   (constructors_wellFormed (WithUserMessage (errorsNew "e") "a") 3 "b"
      (by decide)).2.2.2.2.2.2.2.2.1⟩

/-! ## The status code against its reference function -/

/-- The search for a status code with fallback `d` is the stored code of
the outer-most `statusCoder` of the chain if there is one, `StatusCodeMsg` if
there is none but the chain contains a `messenger`, and `d` otherwise. -/
theorem search_statusCode_eq (cfg : Config) (e : error) (d : Int) :
    (match errorsAs error.asStatusCoder e with
      | some sc => sc.StatusCode cfg
      | none => d)
      = (match (chain e).find? error.isStatusCoder with
          | some (error.statusCoder _ code) => code
          | _ => if (chain e).any error.isMessenger then cfg.StatusCodeMsg else d) := by
  induction e generalizing d with
  | nil => simp [errorsAs, chain]
  | plain text cause ih =>
    have := ih d
    simpa [errorsAs, error.asStatusCoder, chain, error.isStatusCoder, error.isMessenger]
      using this
  | statusCoder err code _ =>
    simp [errorsAs, error.asStatusCoder, chain, error.isStatusCoder,
      StatusCoder.StatusCode_statusCoder]
  | messenger err msg ih =>
    have h := ih cfg.StatusCodeMsg
    simp only [errorsAs, error.asStatusCoder, StatusCoder.StatusCode_messenger, chain,
      List.find?, error.isStatusCoder, List.any_cons, error.isMessenger, Bool.true_or,
      if_true]
    rw [h]
    split <;> simp_all

/-- C17: for every non-nil error `e` over the node set {status-coder,
user-messenger, plain}, `StatusCode(e)` is the value of the reference
function: the stored code of the outer-most status-coder of the chain if there
is one, otherwise `StatusCodeMsg` if the chain contains a user-messenger,
otherwise `StatusCodeErr`. -/
theorem statusCode_eq_reference (cfg : Config) (e : error) (hne : e ≠ error.nil) :
    StatusCode cfg e = statusCodeReference cfg e := by
  rw [StatusCode_of_ne_nil cfg hne, statusCodeReference]
  exact search_statusCode_eq cfg e cfg.StatusCodeErr

/-- Witness of C17 at a chain whose only status-coder lies below two
user-messengers and a plain wrapper. -/
theorem statusCode_eq_reference_witness :
    WithUserMessage (error.plain "x" (WithUserMessage (WithStatusCode (errorsNew "e") 7) "a"))
        "b" ≠ error.nil
      ∧ statusCodeReference defaultConfig
          (WithUserMessage
            (error.plain "x" (WithUserMessage (WithStatusCode (errorsNew "e") 7) "a")) "b") = 7
      ∧ StatusCode defaultConfig
          (WithUserMessage
            (error.plain "x" (WithUserMessage (WithStatusCode (errorsNew "e") 7) "a")) "b")
        = statusCodeReference defaultConfig
          (WithUserMessage
            (error.plain "x" (WithUserMessage (WithStatusCode (errorsNew "e") 7) "a")) "b") :=
  ⟨by decide, by decide,
   statusCode_eq_reference defaultConfig
     (WithUserMessage (error.plain "x" (WithUserMessage (WithStatusCode (errorsNew "e") 7) "a"))
       "b") (by decide)⟩

/-! ## Termination of the searches -/

/-- A bound of at least the length of the chain lets the loop of `errors.As`
return, with the result of the search. -/
theorem errorsAsFuel_eq {α : Type} (assignable : error → Option α) (e : error) :
    ∀ fuel : Nat, e.depth ≤ fuel → errorsAsFuel assignable fuel e = some (errorsAs assignable e) := by
  induction e with
  | nil => intro fuel _; cases fuel <;> rfl
  | plain text cause ih =>
    intro fuel h
    cases fuel with
    | zero => simp [error.depth] at h
    | succ n =>
      have hc : cause.depth ≤ n := by simp only [error.depth] at h; omega
      simp only [errorsAsFuel, errorsAs]
      cases assignable (error.plain text cause) with
      | none => exact ih n hc
      | some v => rfl
  | statusCoder err code ih =>
    intro fuel h
    cases fuel with
    | zero => simp [error.depth] at h
    | succ n =>
      have hc : err.depth ≤ n := by simp only [error.depth] at h; omega
      simp only [errorsAsFuel, errorsAs]
      cases assignable (error.statusCoder err code) with
      | none => exact ih n hc
      | some v => rfl
  | messenger err msg ih =>
    intro fuel h
    cases fuel with
    | zero => simp [error.depth] at h
    | succ n =>
      have hc : err.depth ≤ n := by simp only [error.depth] at h; omega
      simp only [errorsAsFuel, errorsAs]
      cases assignable (error.messenger err msg) with
      | none => exact ih n hc
      | some v => rfl

/-- The node found by the search for a `StatusCoder` heads a suffix of the
chain searched. -/
theorem errorsAs_asStatusCoder_suffix (e : error) (sc : StatusCoder)
    (h : errorsAs error.asStatusCoder e = some sc) : chain sc.toError <:+ chain e := by
  induction e with
  | nil => simp [errorsAs] at h
  | plain text cause ih =>
    simp only [errorsAs, error.asStatusCoder] at h
    exact (ih h).trans (List.suffix_cons _ _)
  | statusCoder err code _ =>
    simp only [errorsAs, error.asStatusCoder, Option.some.injEq] at h
    subst h
    exact List.suffix_refl _
  | messenger err msg _ =>
    simp only [errorsAs, error.asStatusCoder, Option.some.injEq] at h
    subst h
    exact List.suffix_refl _

/-- The depth of an error is the length of its chain. -/
theorem length_chain (e : error) : (chain e).length = e.depth := by
  induction e with
  | nil => rfl
  | plain text cause ih => simp [chain, error.depth, ih]
  | statusCoder err code ih => simp [chain, error.depth, ih]
  | messenger err msg ih => simp [chain, error.depth, ih]

/-- The node found by the search for a `StatusCoder` is no deeper than the
chain searched. -/
theorem errorsAs_asStatusCoder_depth_le (e : error) (sc : StatusCoder)
    (h : errorsAs error.asStatusCoder e = some sc) : sc.toError.depth ≤ e.depth := by
  have := (errorsAs_asStatusCoder_suffix e sc h).length_le
  rwa [length_chain, length_chain] at this

/-- A bound of at least the depth of the node lets the method `StatusCode`
return, with the value of the method. -/
theorem StatusCoder.StatusCodeFuel_of_depth_le (cfg : Config) :
    ∀ (fuel : Nat) (sc : StatusCoder), sc.toError.depth ≤ fuel →
      sc.StatusCodeFuel cfg fuel = some (sc.StatusCode cfg) := by
  intro fuel
  induction fuel with
  | zero =>
    intro sc h
    cases sc <;> simp [StatusCoder.toError, error.depth] at h
  | succ n ih =>
    intro sc h
    cases sc with
    | statusCoder err code =>
      simp [StatusCoder.StatusCodeFuel, StatusCoder.StatusCode_statusCoder]
    | messenger err msg =>
      have hc : err.depth ≤ n := by
        simp only [StatusCoder.toError, error.depth] at h; omega
      simp only [StatusCoder.StatusCodeFuel, errorsAsFuel_eq error.asStatusCoder err n hc,
        StatusCoder.StatusCode_messenger]
      cases hx : errorsAs error.asStatusCoder err with
      | none => rfl
      | some sc2 =>
        exact ih sc2 (le_trans (errorsAs_asStatusCoder_depth_le err sc2 hx) hc)

/-- A bound of at least the length of the chain lets `StatusCode` return. -/
theorem StatusCodeFuel_eq (cfg : Config) (e : error) (fuel : Nat) (h : e.depth ≤ fuel) :
    StatusCodeFuel cfg fuel e = some (StatusCode cfg e) := by
  by_cases hne : e = error.nil
  · subst hne; rfl
  · have h1 : StatusCodeFuel cfg fuel e
        = (match errorsAsFuel error.asStatusCoder fuel e with
            | none => none
            | some none => some cfg.StatusCodeErr
            | some (some sc) => sc.StatusCodeFuel cfg fuel) := by
      cases e <;> first | exact absurd rfl hne | rfl
    rw [h1, errorsAsFuel_eq error.asStatusCoder e fuel h, StatusCode_of_ne_nil cfg hne]
    cases hx : errorsAs error.asStatusCoder e with
    | none => rfl
    | some sc =>
      exact StatusCoder.StatusCodeFuel_of_depth_le cfg fuel sc
        (le_trans (errorsAs_asStatusCoder_depth_le e sc hx) h)

/-- C16: `StatusCode`, `UserMessage` and `UserMessageStatus` are total on
every finite cause chain and on nil: run with a bound of at least the length of
the chain each of them returns, with the value of the accessor; and a nested
search, launched by a user-messenger that a search from `x` has found, starts
at that messenger's cause, a proper suffix of the chain of `x`, so strictly
deeper. -/
theorem accessors_terminate (cfg : Config) (e : error) (fuel : Nat) (hfuel : e.depth ≤ fuel) :
    StatusCodeFuel cfg fuel e = some (StatusCode cfg e)
      ∧ UserMessageFuel cfg fuel e = some (UserMessage cfg e)
      ∧ UserMessageStatusFuel cfg fuel e = some (UserMessageStatus cfg e)
      ∧ (∀ (x err : error) (msg : String),
          errorsAs error.asStatusCoder x = some (StatusCoder.messenger err msg) →
            error.messenger err msg :: chain err <:+ chain x ∧ err.depth < x.depth) := by
  refine ⟨StatusCodeFuel_eq cfg e fuel hfuel, ?_, ?_, ?_⟩
  · by_cases hne : e = error.nil
    · subst hne; rfl
    · have h1 : UserMessageFuel cfg fuel e
          = (match errorsAsFuel error.asUserMessenger fuel e with
              | none => none
              | some none => some cfg.DefaultErrorMessage
              | some (some um) => some um.UserMessage) := by
        cases e <;> first | exact absurd rfl hne | rfl
      rw [h1, errorsAsFuel_eq error.asUserMessenger e fuel hfuel,
        UserMessage_of_ne_nil cfg hne]
      cases errorsAs error.asUserMessenger e <;> rfl
  · by_cases hne : e = error.nil
    · subst hne; rfl
    · have h1 : UserMessageStatusFuel cfg fuel e
          = (match errorsAsFuel error.asUserMessenger fuel e with
              | none => none
              | some none => (StatusCodeFuel cfg fuel e).map cfg.StatusCodeToMessage
              | some (some um) => some um.UserMessage) := by
        cases e <;> first | exact absurd rfl hne | rfl
      rw [h1, errorsAsFuel_eq error.asUserMessenger e fuel hfuel,
        UserMessageStatus_of_ne_nil cfg hne, StatusCodeFuel_eq cfg e fuel hfuel]
      cases errorsAs error.asUserMessenger e <;> rfl
  · intro x err msg hx
    have hs := errorsAs_asStatusCoder_suffix x _ hx
    have hd := errorsAs_asStatusCoder_depth_le x _ hx
    simp only [StatusCoder.toError, chain, error.depth] at hs hd
    exact ⟨hs, by omega⟩

/-- Witness of C16 at a chain of five nodes with two nested user-messengers:
the bound 5 suffices, and the bound 0 does not. -/
theorem accessors_terminate_witness :
    (WithUserMessage (error.plain "x" (WithUserMessage (WithStatusCode (errorsNew "e") 7) "a"))
        "b").depth = 5
      ∧ StatusCodeFuel defaultConfig 5
          (WithUserMessage
            (error.plain "x" (WithUserMessage (WithStatusCode (errorsNew "e") 7) "a")) "b")
        = some (StatusCode defaultConfig
          (WithUserMessage
            (error.plain "x" (WithUserMessage (WithStatusCode (errorsNew "e") 7) "a")) "b"))
      ∧ StatusCodeFuel defaultConfig 5
          (WithUserMessage
            (error.plain "x" (WithUserMessage (WithStatusCode (errorsNew "e") 7) "a")) "b")
        = some 7
      ∧ StatusCodeFuel defaultConfig 0
          (WithUserMessage
            (error.plain "x" (WithUserMessage (WithStatusCode (errorsNew "e") 7) "a")) "b")
        = none :=
  ⟨by decide,
   (accessors_terminate defaultConfig
      (WithUserMessage (error.plain "x" (WithUserMessage (WithStatusCode (errorsNew "e") 7) "a"))
        "b") 5 (by decide)).1,
   by decide, by decide⟩

/-! ## Errors built by `New` around a wrapped cause -/

/-- A character other than `%` is copied to the output. -/
theorem doPrintf_cons_of_ne (wrapErrs : Bool) (c : Char) (rest : List Char) (args : List Arg)
    (hc : c ≠ '%') :
    doPrintf wrapErrs (c :: rest) args
      = (doPrintf wrapErrs rest args).map fun r => (String.singleton c ++ r.1, r.2) := by
  rw [doPrintf]
  intro verb rest2 h
  cases h
  all_goals simp_all

/-- The directive `%w` with an error operand prints its text and records it. -/
theorem doPrintf_wrap_last (e : error) (t : String) (ht : e.Error = some t) :
    doPrintf true ['%', 'w'] [Arg.err e] = some (t, [e]) := by
  simp [doPrintf, ht]

/-- A prefix without `%` followed by `%w` prints the prefix and the text of
the operand, and records the operand. -/
theorem doPrintf_prefix_wrap (e : error) (t : String) (ht : e.Error = some t) :
    ∀ cs : List Char, '%' ∉ cs →
      doPrintf true (cs ++ ['%', 'w']) [Arg.err e] = some (String.mk cs ++ t, [e]) := by
  intro cs
  induction cs with
  | nil =>
    intro _
    rw [List.nil_append, doPrintf_wrap_last e t ht]
    have h0 : String.mk [] ++ t = t := by
      apply String.ext
      simp
    rw [h0]
  | cons c cs ih =>
    intro h
    have hc : c ≠ '%' := by
      intro hc; apply h; simp [hc]
    have hcs : '%' ∉ cs := by
      intro hcs; apply h; simp [hcs]
    rw [List.cons_append, doPrintf_cons_of_ne true c _ _ hc, ih hcs]
    simp only [Option.map_some']
    congr 2

/-- With a prefix free of `%`, the call of `fmt.Errorf` on the prefix followed
by `%w` gives a wrapper of the operand whose text is the prefix followed by the
text of the operand. -/
theorem fmtErrorf_prefix_wrap (p : String) (e : error) (t : String)
    (hp : '%' ∉ p.toList) (ht : e.Error = some t) :
    fmtErrorf (p ++ "%w") [Arg.err e] = some (error.plain (p ++ t) e) := by
  have hl : (p ++ "%w").toList = p.toList ++ ['%', 'w'] := by
    simp [String.toList, String.data_append]
  have hp2 : String.mk p.toList = p := rfl
  rw [fmtErrorf, hl, doPrintf_prefix_wrap e t ht p.toList hp, hp2]

/-- C14, as the code has it: with the prefix `"%s"` the operand is consumed by
`%s`, `%w` finds no operand, and the error built by `New` has another text than
prefix and text of the cause, has no cause, and so does not report the user
message of the cause; with the prefix `"%%"` the cause is kept but the text is
not the prefix followed by the text of the cause. -/
theorem new_prefix_with_percent :
    (WithUserMessage error.nil "msg1").Error = some "UserMessage<msg1>"
      ∧ New 5 ("%s" ++ "%w") [Arg.err (WithUserMessage error.nil "msg1")]
          = some (error.statusCoder (error.plain "UserMessage<msg1>%!w(MISSING)" error.nil) 5)
      ∧ (error.statusCoder (error.plain "UserMessage<msg1>%!w(MISSING)" error.nil) 5).Error
          ≠ some ("%s" ++ "UserMessage<msg1>")
      ∧ UserMessage defaultConfig
          (error.statusCoder (error.plain "UserMessage<msg1>%!w(MISSING)" error.nil) 5)
          ≠ UserMessage defaultConfig (WithUserMessage error.nil "msg1")
      ∧ New 5 ("%%" ++ "%w") [Arg.err (WithUserMessage error.nil "msg1")]
          = some (error.statusCoder
              (error.plain "%UserMessage<msg1>" (WithUserMessage error.nil "msg1")) 5)
      ∧ (error.statusCoder
            (error.plain "%UserMessage<msg1>" (WithUserMessage error.nil "msg1")) 5).Error
          ≠ some ("%%" ++ "UserMessage<msg1>") := by
  refine ⟨by decide, by decide, by decide, ?_, by decide, by decide⟩
  have h1 : UserMessage defaultConfig
      (error.statusCoder (error.plain "UserMessage<msg1>%!w(MISSING)" error.nil) 5)
      = "An unexpected error occured." := by
    simp [UserMessage, errorsAs, error.asUserMessenger, defaultConfig]
  have h2 : UserMessage defaultConfig (WithUserMessage error.nil "msg1") = "msg1" := by
    rw [WithUserMessage_nil]
    exact UserMessage_messenger defaultConfig _ "msg1"
  rw [h1, h2]
  decide

/-- C14, amended: for every code `c`, every prefix `p` without the character
`%` and every error `e` that has a display text `t`, `New(c, p ++ "%w", e)` is
an error `w` with `StatusCode(w) == c`, display text `p ++ t`, and `e` as the
cause of its formatted error, so that `e` is in the chain of `w` and
`UserMessage(w) == UserMessage(e)`; in particular, with `inner =
WithUserMessage(nil, "msg1")`, `w1 = New(5, "w1: %w", inner)` and `w2 = New(6,
"w2: %w", w1)`: `StatusCode(w1) == 5`, `StatusCode(w2) == 6`, `UserMessage(w2)
== "msg1"` and the display text of `w2` is `"w2: w1: UserMessage<msg1>"`. -/
theorem new_wrap_spec (cfg : Config) (c : Int) (p : String) (e : error) (t : String)
    (hp : '%' ∉ p.toList) (ht : e.Error = some t) :
    (∃ w : error, New c (p ++ "%w") [Arg.err e] = some w
        ∧ StatusCode cfg w = c
        ∧ w.Error = some (p ++ t)
        ∧ errorsUnwrap (errorsUnwrap w) = e
        ∧ e ∈ chain w
        ∧ UserMessage cfg w = UserMessage cfg e)
      ∧ (∃ w1 w2 : error,
          New 5 "w1: %w" [Arg.err (WithUserMessage error.nil "msg1")] = some w1
            ∧ New 6 "w2: %w" [Arg.err w1] = some w2
            ∧ StatusCode cfg w1 = 5
            ∧ StatusCode cfg w2 = 6
            ∧ UserMessage cfg w2 = "msg1"
            ∧ w2.Error = some "w2: w1: UserMessage<msg1>") := by
  have hne : e ≠ error.nil := by
    intro h; subst h; simp [error.Error] at ht
  constructor
  · refine ⟨error.statusCoder (error.plain (p ++ t) e) c, ?_, ?_, rfl, rfl, ?_, ?_⟩
    · rw [New, fmtErrorf_prefix_wrap p e t hp ht]
      rfl
    · simp [StatusCode, errorsAs, error.asStatusCoder, StatusCoder.StatusCode_statusCoder]
    · simp [chain, mem_chain_self hne]
    · have h1 : error.statusCoder (error.plain (p ++ t) e) c ≠ error.nil := by
        intro h; cases h
      rw [UserMessage_of_ne_nil cfg h1, UserMessage_of_ne_nil cfg hne,
        errorsAs_asUserMessenger_statusCoder, errorsAs_asUserMessenger_plain]
  · refine ⟨error.statusCoder (error.plain "w1: UserMessage<msg1>"
        (WithUserMessage error.nil "msg1")) 5,
      error.statusCoder (error.plain "w2: w1: UserMessage<msg1>"
        (error.statusCoder (error.plain "w1: UserMessage<msg1>"
          (WithUserMessage error.nil "msg1")) 5)) 6, by decide, by decide, ?_, ?_, ?_, by decide⟩
    · simp [StatusCode, errorsAs, error.asStatusCoder, StatusCoder.StatusCode_statusCoder]
    · simp [StatusCode, errorsAs, error.asStatusCoder, StatusCoder.StatusCode_statusCoder]
    · simp [UserMessage, WithUserMessage, errorsAs, error.asUserMessenger,
        UserMessenger.UserMessage]

/-- Witness of the amended C14 at `New(5, "w1: %w", inner)` with `inner =
WithUserMessage(nil, "msg1")`. -/
theorem new_wrap_spec_witness :
    '%' ∉ "w1: ".toList
      ∧ (WithUserMessage error.nil "msg1").Error = some "UserMessage<msg1>"
      ∧ ∃ w : error, New 5 ("w1: " ++ "%w") [Arg.err (WithUserMessage error.nil "msg1")] = some w
        ∧ StatusCode defaultConfig w = 5
        ∧ w.Error = some ("w1: " ++ "UserMessage<msg1>")
        ∧ errorsUnwrap (errorsUnwrap w) = WithUserMessage error.nil "msg1"
        ∧ WithUserMessage error.nil "msg1" ∈ chain w
        ∧ UserMessage defaultConfig w
            = UserMessage defaultConfig (WithUserMessage error.nil "msg1") :=
  ⟨by decide, by decide,
   (new_wrap_spec defaultConfig 5 "w1: " (WithUserMessage error.nil "msg1")
      "UserMessage<msg1>" (by decide) (by decide)).1⟩

end Resperr
